import Mathlib

/-!
# Envelope-encryption engine (KMSv2): shallow embedding

The repository holds the integration tests of the envelope-transformation
engine (`kmsv2_transformation_test.go`) and a generated deep-copy file
(`zz_generated.deepcopy.go`).  The engine itself is not among the sources, so
its data model and operations are modelled from the specification: wire
codec, nonce generator, payload cipher, KMS plugin client, DEK cache /
key-epoch manager, envelope transformer, service factory and health
aggregator.  Bytes are `List Nat` with values below 256 where the spec speaks
of bytes; machine counters are `Nat` guarded explicitly at `2 ^ 64`.
-/

namespace EnvelopeKMS

/-- Error taxonomy of the engine (spec section 7). -/
inductive TransformError where
  | malformedEnvelope : TransformError
  | decryptionFailed : TransformError
  | dekExpired (keyID : String) (expiresAt : Nat) : TransformError
  | unavailable : TransformError
  | precondition : TransformError
  | notFound : TransformError
  | nonceOverflow : TransformError
  deriving DecidableEq

/-- Little-endian bytes of `n`, `k` bytes wide. -/
def leBytes : Nat → Nat → List Nat
  | 0, _ => []
  | k + 1, n => n % 256 :: leBytes k (n / 256)

/-- Value of a little-endian byte string. -/
def decodeLE : List Nat → Nat
  | [] => 0
  | b :: bs => b + 256 * decodeLE bs

theorem leBytes_length (k n : Nat) : (leBytes k n).length = k := by
  induction k generalizing n with
  | zero => rfl
  | succ k ih => simp [leBytes, ih]

theorem decodeLE_leBytes (k n : Nat) : decodeLE (leBytes k n) = n % 256 ^ k := by
  induction k generalizing n with
  | zero => simp [leBytes, decodeLE, Nat.mod_one]
  | succ k ih =>
    simp only [leBytes, decodeLE, ih]
    have h1 : 256 ^ (k + 1) = 256 * 256 ^ k := by ring
    rw [h1, Nat.mod_mul]

/-- The bytes of a string (one `Nat` per character). -/
def strBytes (s : String) : List Nat := s.data.map Char.toNat

/-- A byte-string field on the wire: its length, then its bytes. -/
def encodeBytes (b : List Nat) : List Nat := b.length :: b

/-- Read one length-prefixed byte-string field, returning it and the rest. -/
def parseBytes : List Nat → Option (List Nat × List Nat)
  | [] => none
  | n :: rest => if n ≤ rest.length then some (rest.take n, rest.drop n) else none

theorem parseBytes_encode (b t : List Nat) :
    parseBytes (encodeBytes b ++ t) = some (b, t) := by
  simp only [encodeBytes, List.cons_append, parseBytes]
  rw [if_pos (by simp), List.take_left, List.drop_left]

/-- A string field on the wire. -/
def encodeStr (s : String) : List Nat := encodeBytes (strBytes s)

/-- Read one string field. -/
def parseStr (bs : List Nat) : Option (String × List Nat) :=
  match parseBytes bs with
  | none => none
  | some (cs, t) => some (String.mk (cs.map Char.ofNat), t)

theorem parseStr_encode (s : String) (t : List Nat) :
    parseStr (encodeStr s ++ t) = some (s, t) := by
  simp only [encodeStr, parseStr, parseBytes_encode, strBytes]
  rw [List.map_map]
  have h : s.data.map (Char.ofNat ∘ Char.toNat) = s.data := by
    apply List.map_id'' ?_ s.data
    intro c
    exact Char.ofNat_toNat c
  rw [h]

/-! ## Payload cipher (spec 4.2, 4.3)

Modelled from the spec: the AEAD seal/open pair of the payload cipher is not
among the repository's sources.  The keystream and authentication tag are
abstract mixing functions; what matters for the stated properties is that the
seal is invertible under the same DEK and AAD and that the ciphertext layout
is `nonce(12) ‖ sealedPayload` with the tag at the end of the sealed part. -/

/-- An abstract byte-mixing fold used by the modelled cipher. -/
def hashList (l : List Nat) (acc : Nat) : Nat :=
  l.foldl (fun a x => (a * 131 + x + 1) % 4294967296) acc

/-- Modelled from the spec: the keystream of the payload cipher, a function
of DEK, nonce and byte index only. -/
def keystream (dek nonce : List Nat) (i : Nat) : Nat :=
  (hashList nonce (hashList dek 7) + i * 2654435761) % 4294967296

/-- Seal the plaintext bytes from index `i` on (byte-wise keystream add). -/
def sealFrom (dek nonce : List Nat) : Nat → List Nat → List Nat
  | _, [] => []
  | i, b :: bs => (b + keystream dek nonce i) % 256 :: sealFrom dek nonce (i + 1) bs

/-- Invert `sealFrom` from index `i` on. -/
def openFrom (dek nonce : List Nat) : Nat → List Nat → List Nat
  | _, [] => []
  | i, b :: bs =>
    (b + 256 - keystream dek nonce i % 256) % 256 :: openFrom dek nonce (i + 1) bs

theorem openFrom_sealFrom (dek nonce : List Nat) (pt : List Nat) (i : Nat)
    (h : ∀ b ∈ pt, b < 256) :
    openFrom dek nonce i (sealFrom dek nonce i pt) = pt := by
  induction pt generalizing i with
  | nil => rfl
  | cons b bs ih =>
    have hb : b < 256 := h b (List.mem_cons_self b bs)
    have hbs : ∀ x ∈ bs, x < 256 := fun x hx => h x (List.mem_cons_of_mem b hx)
    simp only [sealFrom, openFrom, ih (i + 1) hbs, List.cons.injEq, and_true]
    omega

theorem sealFrom_length (dek nonce : List Nat) (pt : List Nat) (i : Nat) :
    (sealFrom dek nonce i pt).length = pt.length := by
  induction pt generalizing i with
  | nil => rfl
  | cons b bs ih => simp [sealFrom, ih]

/-- Modelled from the spec: the 16-byte AEAD authentication tag over DEK,
nonce, AAD and ciphertext body. -/
def tagOf (dek nonce aad ct : List Nat) : List Nat :=
  leBytes 16 (hashList ct (hashList aad (hashList nonce (hashList dek 11))))

/-- Modelled from the spec: `sealValue(dek, nonce, plaintext, aad)`; the
ciphertext layout is `nonce(12) ‖ sealedPayload`, the sealed payload already
carrying the tag. -/
def sealValue (dek nonce pt aad : List Nat) : List Nat :=
  nonce ++ (sealFrom dek nonce 0 pt ++ tagOf dek nonce aad (sealFrom dek nonce 0 pt))

/-- Modelled from the spec: `openValue(dek, ciphertext, aad)`, failing with
`DecryptionFailed` on a tag or AAD-binding mismatch. -/
def openValue (dek ct aad : List Nat) : Except TransformError (List Nat) :=
  let nonce := ct.take 12
  let rest := ct.drop 12
  if 16 ≤ rest.length then
    let body := rest.take (rest.length - 16)
    let tg := rest.drop (rest.length - 16)
    if tg = tagOf dek nonce aad body then .ok (openFrom dek nonce 0 body)
    else .error .decryptionFailed
  else .error .decryptionFailed

theorem openValue_sealValue (dek nonce pt aad : List Nat)
    (hn : nonce.length = 12) (hpt : ∀ b ∈ pt, b < 256) :
    openValue dek (sealValue dek nonce pt aad) aad = .ok pt := by
  have htake : (sealValue dek nonce pt aad).take 12 = nonce := by
    rw [sealValue, ← hn, List.take_left]
  have hdrop : (sealValue dek nonce pt aad).drop 12 =
      sealFrom dek nonce 0 pt ++ tagOf dek nonce aad (sealFrom dek nonce 0 pt) := by
    rw [sealValue, ← hn, List.drop_left]
  have hlen : (sealFrom dek nonce 0 pt ++
      tagOf dek nonce aad (sealFrom dek nonce 0 pt)).length = pt.length + 16 := by
    simp [List.length_append, sealFrom_length, tagOf, leBytes_length]
  rw [openValue]
  simp only [htake, hdrop, hlen]
  rw [if_pos (by omega)]
  have hsub : pt.length + 16 - 16 = (sealFrom dek nonce 0 pt).length := by
    simp [sealFrom_length]
  rw [hsub, List.take_left, List.drop_left, if_pos rfl, openFrom_sealFrom dek nonce pt 0 hpt]

/-! ## Wire codec (spec 4.1, data model) -/

/-- The envelope stored for one value (spec data model): ciphertext of the
value, the KMS key id, the wrapped DEK and free-form annotations. -/
structure EncryptedObject where
  encryptedData : List Nat
  keyID : String
  encryptedDEK : List Nat
  annotations : List (String × List Nat)
  deriving DecidableEq

/-- Annotation entries on the wire, one string field and one bytes field each. -/
def encodeAnns : List (String × List Nat) → List Nat
  | [] => []
  | a :: rest => encodeStr a.1 ++ (encodeBytes a.2 ++ encodeAnns rest)

/-- Read `k` annotation entries. -/
def parseAnns : Nat → List Nat → Option (List (String × List Nat) × List Nat)
  | 0, rest => some ([], rest)
  | k + 1, rest =>
    match parseStr rest with
    | none => none
    | some (s, r1) =>
      match parseBytes r1 with
      | none => none
      | some (b, r2) =>
        match parseAnns k r2 with
        | none => none
        | some (l, r3) => some ((s, b) :: l, r3)

theorem parseAnns_encode (l : List (String × List Nat)) (t : List Nat) :
    parseAnns l.length (encodeAnns l ++ t) = some (l, t) := by
  induction l generalizing t with
  | nil => rfl
  | cons a rest ih =>
    simp only [encodeAnns, List.length_cons, List.append_assoc, parseAnns,
      parseStr_encode, parseBytes_encode, ih]

/-- Modelled from the spec: the structured serialization of an
`EncryptedObject` (the part of the wire after the textual prefix). -/
def encodeEO (o : EncryptedObject) : List Nat :=
  encodeBytes o.encryptedData ++ (encodeStr o.keyID ++
    (encodeBytes o.encryptedDEK ++ (o.annotations.length :: encodeAnns o.annotations)))

/-- Modelled from the spec: deserialize an `EncryptedObject`; `none` stands
for a `MalformedEnvelope` failure. -/
def decodeEO (bs : List Nat) : Option EncryptedObject :=
  match parseBytes bs with
  | none => none
  | some (data, r1) =>
    match parseStr r1 with
    | none => none
    | some (kid, r2) =>
      match parseBytes r2 with
      | none => none
      | some (edek, r3) =>
        match r3 with
        | [] => none
        | k :: r4 =>
          match parseAnns k r4 with
          | some (anns, []) => some ⟨data, kid, edek, anns⟩
          | _ => none

theorem decodeEO_encode (o : EncryptedObject) : decodeEO (encodeEO o) = some o := by
  have h := parseAnns_encode o.annotations []
  rw [List.append_nil] at h
  simp only [encodeEO, decodeEO, parseBytes_encode, parseStr_encode, h]

/-- The textual provider prefix `"k8s:enc:kms:v2:<providerName>:"`
(test helper `envelopekmsv2.prefix`). -/
def wirePrefix (providerName : String) : String :=
  "k8s:enc:kms:v2:" ++ providerName ++ ":"

/-- Provider-prefixed wire bytes of an envelope. -/
def encodeWire (providerName : String) (o : EncryptedObject) : List Nat :=
  strBytes (wirePrefix providerName) ++ encodeEO o

/-- Decode the stored wire bytes: strip the provider prefix length, then
deserialize (spec 4.1). -/
def decodeWire (providerName : String) (stored : List Nat) : Option EncryptedObject :=
  decodeEO (stored.drop (strBytes (wirePrefix providerName)).length)

theorem decodeWire_encodeWire (providerName : String) (o : EncryptedObject) :
    decodeWire providerName (encodeWire providerName o) = some o := by
  rw [decodeWire, encodeWire, List.drop_left, decodeEO_encode]

/-! ## KMS plugin client (spec 4.4) -/

/-- The observable state of one KMS backend: its currently active key id and
whether it is reachable (the test drives this with `UpdateKeyID` and
`EnterFailedState`). -/
structure KMSState where
  keyID : String
  reachable : Bool
  deriving DecidableEq

/-- Modelled from the spec: wrapping a DEK under the backend's KEK.  The wrap
is an injective encoding of the DEK together with the key id, so that
`decryptDEK` can invert it and distinct epochs carry distinct wrapped DEKs. -/
def wrapDEK (dek : List Nat) (keyID : String) : List Nat :=
  encodeBytes dek ++ strBytes keyID

theorem parseBytes_wrapDEK (dek : List Nat) (keyID : String) :
    parseBytes (wrapDEK dek keyID) = some (dek, strBytes keyID) :=
  parseBytes_encode dek (strBytes keyID)

/-- Modelled from the spec: `encryptDEK(plaintextDEK) -> (encryptedDEK,
keyID)`; fails with `Unavailable` when the backend cannot be reached. -/
def encryptDEK (backend : KMSState) (dek : List Nat) :
    Except TransformError (List Nat × String) :=
  if backend.reachable then .ok (wrapDEK dek backend.keyID, backend.keyID)
  else .error .unavailable

/-- Modelled from the spec: `decryptDEK(encryptedDEK) -> plaintextDEK`;
`Unavailable` when the backend is down, `NotFound` on an unknown
ciphertext format. -/
def decryptDEK (backend : KMSState) (edek : List Nat) :
    Except TransformError (List Nat) :=
  if backend.reachable then
    match parseBytes edek with
    | some (dek, _) => .ok dek
    | none => .error .notFound
  else .error .unavailable

/-! ## DEK cache / key-epoch manager (spec 4.5) -/

/-- One key epoch (spec data model): `{keyID, plaintextDEK, encryptedDEK,
expiresAt}`. -/
structure KeyEpoch where
  keyID : String
  plaintextDEK : List Nat
  encryptedDEK : List Nat
  expiresAt : Nat
  deriving DecidableEq

/-- Mint a new epoch: wrap a locally generated DEK via the backend and adopt
the returned key id with a TTL validity window from `now` (spec 4.5). -/
def mintEpoch (now ttl : Nat) (backend : KMSState) (freshDEK : List Nat) :
    Except TransformError KeyEpoch :=
  match encryptDEK backend freshDEK with
  | .error e => .error e
  | .ok (edek, kid) => .ok ⟨kid, freshDEK, edek, now + ttl⟩

/-- Modelled from the spec: `currentEpoch()`.  Returns the cached epoch while
it is unexpired and not known stale, without contacting the backend; refreshes
on first use, on expiry and on a key-id staleness signal (only observable while
the backend is reachable); fails with `DekExpired` when the epoch is past its
validity and a refresh cannot succeed.  The returned flag records whether the
backend was contacted. -/
def currentEpoch (now ttl : Nat) (backend : KMSState) (freshDEK : List Nat) :
    Option KeyEpoch → Except TransformError (KeyEpoch × Bool)
  | none =>
    match mintEpoch now ttl backend freshDEK with
    | .error e => .error e
    | .ok ep => .ok (ep, true)
  | some ep =>
    if ep.expiresAt ≤ now then
      match mintEpoch now ttl backend freshDEK with
      | .error _ => .error (.dekExpired ep.keyID ep.expiresAt)
      | .ok ep2 => .ok (ep2, true)
    else if backend.reachable ∧ backend.keyID ≠ ep.keyID then
      match mintEpoch now ttl backend freshDEK with
      | .error e => .error e
      | .ok ep2 => .ok (ep2, true)
    else
      .ok (ep, false)

/-! ## Nonce generator (spec 4.2) and envelope transformer (spec 4.6) -/

/-- Modelled from the spec: `NonceState`, a 4-byte random prefix fixed at
process start and a monotonically increasing counter. -/
structure NonceState where
  randomPrefix : List Nat
  counter : Nat
  deriving DecidableEq

/-- The counter's seed: a large constant offset so accidental zero/low values
are detectable (spec data model; the test calls it "zero value of counter is
one billion"). -/
def nonceSeed : Nat := 1000000000

/-- Modelled from the spec: `next()` increments the counter first and returns
`randomPrefix ‖ littleEndian64(counter)`. -/
def NonceState.next (ns : NonceState) : List Nat × NonceState :=
  (ns.randomPrefix ++ leBytes 8 (ns.counter + 1), ⟨ns.randomPrefix, ns.counter + 1⟩)

/-- The mutable state owned by one envelope transformer instance: the cached
epoch and the nonce state. -/
structure TransformerState where
  epoch : Option KeyEpoch
  nonce : NonceState
  deriving DecidableEq

/-- Modelled from the spec: `transformToStorage(plaintext, location)` obtains
the current epoch, draws a nonce, seals the plaintext with the location as
AAD binding, and returns the provider-prefixed wire bytes of the envelope.
Counter wrap at `2 ^ 64` is a fatal condition, not silently handled. -/
def transformToStorage (providerName : String) (now ttl : Nat) (backend : KMSState)
    (freshDEK : List Nat) (st : TransformerState) (pt : List Nat) (loc : String) :
    Except TransformError (List Nat × TransformerState) :=
  match currentEpoch now ttl backend freshDEK st.epoch with
  | .error e => .error e
  | .ok (ep, _) =>
    if st.nonce.counter + 1 < 2 ^ 64 then
      let drawn := st.nonce.next
      let ct := sealValue ep.plaintextDEK drawn.1 pt (strBytes loc)
      .ok (encodeWire providerName ⟨ct, ep.keyID, ep.encryptedDEK, []⟩,
        ⟨some ep, drawn.2⟩)
    else .error .nonceOverflow

/-- The transformer's local read cache keyed by `encryptedDEK` (spec 4.6):
the cached epoch's wrapped DEK opens with its plaintext DEK. -/
def cacheOf (st : TransformerState) : List (List Nat × List Nat) :=
  match st.epoch with
  | some ep => [(ep.encryptedDEK, ep.plaintextDEK)]
  | none => []

/-- Look a wrapped DEK up in the local read cache, falling back to the
backend's `decryptDEK` (spec 4.6). -/
def lookupDEK (cache : List (List Nat × List Nat)) (backend : KMSState)
    (edek : List Nat) : Except TransformError (List Nat) :=
  match cache.lookup edek with
  | some dek => .ok dek
  | none => decryptDEK backend edek

/-- Modelled from the spec: `transformFromStorage(bytes, location)` decodes
the envelope, unwraps the DEK (read cache first, then the backend) and opens
the payload under the location AAD binding. -/
def transformFromStorage (providerName : String) (backend : KMSState)
    (cache : List (List Nat × List Nat)) (stored : List Nat) (loc : String) :
    Except TransformError (List Nat) :=
  match decodeWire providerName stored with
  | none => .error .malformedEnvelope
  | some o =>
    match lookupDEK cache backend o.encryptedDEK with
    | .error e => .error e
    | .ok dek => openValue dek o.encryptedData (strBytes loc)

/-! ## Characterization lemmas -/

theorem mintEpoch_reachable (now ttl : Nat) (backend : KMSState) (freshDEK : List Nat)
    (hr : backend.reachable = true) :
    mintEpoch now ttl backend freshDEK =
      .ok ⟨backend.keyID, freshDEK, wrapDEK freshDEK backend.keyID, now + ttl⟩ := by
  rw [mintEpoch, encryptDEK, if_pos hr]

theorem mintEpoch_unreachable (now ttl : Nat) (backend : KMSState) (freshDEK : List Nat)
    (hr : backend.reachable = false) :
    mintEpoch now ttl backend freshDEK = .error .unavailable := by
  rw [mintEpoch, encryptDEK, if_neg (by simp [hr])]

theorem currentEpoch_cached (now ttl : Nat) (backend : KMSState) (freshDEK : List Nat)
    (ep : KeyEpoch) (hlive : now < ep.expiresAt)
    (hstable : ¬(backend.reachable = true ∧ backend.keyID ≠ ep.keyID)) :
    currentEpoch now ttl backend freshDEK (some ep) = .ok (ep, false) := by
  rw [currentEpoch, if_neg (by omega), if_neg (by simpa using hstable)]

/-- The wire bytes one cached-epoch encryption produces when the nonce
counter is `c` after the draw. -/
def encOut (providerName : String) (ep : KeyEpoch) (pfx : List Nat) (c : Nat)
    (pt : List Nat) (loc : String) : List Nat :=
  encodeWire providerName
    ⟨sealValue ep.plaintextDEK (pfx ++ leBytes 8 c) pt (strBytes loc),
      ep.keyID, ep.encryptedDEK, []⟩

theorem transformToStorage_ok (providerName loc : String) (now ttl : Nat)
    (backend : KMSState) (freshDEK : List Nat) (st : TransformerState)
    (pt b : List Nat) (st' : TransformerState)
    (henc : transformToStorage providerName now ttl backend freshDEK st pt loc =
      .ok (b, st')) :
    ∃ ep flag,
      currentEpoch now ttl backend freshDEK st.epoch = .ok (ep, flag) ∧
      st.nonce.counter + 1 < 2 ^ 64 ∧
      b = encOut providerName ep st.nonce.randomPrefix (st.nonce.counter + 1) pt loc ∧
      st' = ⟨some ep, ⟨st.nonce.randomPrefix, st.nonce.counter + 1⟩⟩ := by
  unfold transformToStorage at henc
  split at henc
  · exact absurd henc (by simp)
  case _ ep flag heq =>
    split at henc
    case isTrue hc =>
      simp only [NonceState.next, Except.ok.injEq, Prod.mk.injEq] at henc
      exact ⟨ep, flag, heq, hc, henc.1.symm, henc.2.symm⟩
    case isFalse => exact absurd henc (by simp)

theorem transformToStorage_cached (providerName loc : String) (now ttl : Nat)
    (backend : KMSState) (freshDEK : List Nat) (ep : KeyEpoch) (pfx : List Nat)
    (c : Nat) (pt : List Nat) (hlive : now < ep.expiresAt)
    (hstable : ¬(backend.reachable = true ∧ backend.keyID ≠ ep.keyID))
    (hc : c + 1 < 2 ^ 64) :
    transformToStorage providerName now ttl backend freshDEK ⟨some ep, ⟨pfx, c⟩⟩ pt loc =
      .ok (encOut providerName ep pfx (c + 1) pt loc, ⟨some ep, ⟨pfx, c + 1⟩⟩) := by
  unfold transformToStorage
  rw [currentEpoch_cached now ttl backend freshDEK ep hlive hstable]
  simp only [NonceState.next]
  rw [if_pos hc]
  rfl

/-- C1 (claim): decrypting through the transformer's read cache recovers the
plaintext of anything the transformer just encrypted. -/
theorem c1_round_trip (providerName loc : String) (now ttl : Nat) (backend : KMSState)
    (freshDEK : List Nat) (st : TransformerState) (pt b : List Nat)
    (st' : TransformerState)
    (hp4 : st.nonce.randomPrefix.length = 4)
    (hpt : ∀ x ∈ pt, x < 256)
    (henc : transformToStorage providerName now ttl backend freshDEK st pt loc =
      .ok (b, st')) :
    transformFromStorage providerName backend (cacheOf st') b loc = .ok pt := by
  obtain ⟨ep, flag, _, _, hb, hst⟩ :=
    transformToStorage_ok providerName loc now ttl backend freshDEK st pt b st' henc
  subst hb hst
  simp only [transformFromStorage, encOut, decodeWire_encodeWire, cacheOf, lookupDEK,
    List.lookup, beq_self_eq_true]
  exact openValue_sealValue ep.plaintextDEK _ pt (strBytes loc)
    (by simp [hp4, leBytes_length]) hpt

/-- C1 witness: the round trip evaluated at a concrete plaintext, location
and epoch. -/
theorem c1_round_trip_witness :
    transformFromStorage "kms-provider" ⟨"1", true⟩
      (cacheOf ⟨some ⟨"1", [1, 2], wrapDEK [1, 2] "1", 60⟩,
        ⟨[9, 8, 7, 6], nonceSeed + 1⟩⟩)
      (encOut "kms-provider" ⟨"1", [1, 2], wrapDEK [1, 2] "1", 60⟩ [9, 8, 7, 6]
        (nonceSeed + 1) [5, 6] "loc")
      "loc" = .ok [5, 6] :=
  c1_round_trip "kms-provider" "loc" 0 60 ⟨"1", true⟩ [3]
    ⟨some ⟨"1", [1, 2], wrapDEK [1, 2] "1", 60⟩, ⟨[9, 8, 7, 6], nonceSeed⟩⟩
    [5, 6] _ _ (by decide) (by decide)
    (transformToStorage_cached "kms-provider" "loc" 0 60 ⟨"1", true⟩ [3]
      ⟨"1", [1, 2], wrapDEK [1, 2] "1", 60⟩ [9, 8, 7, 6] nonceSeed [5, 6]
      (by decide) (by decide) (by decide))

/-! ## Sequences of encryptions (tests `TestKMSv2ProviderDEKReuse`,
`assertPodDEKs`) -/

/-- Run the transformer over a list of plaintexts in order, collecting the
stored wire bytes (the test creates pods in creation order and lists them). -/
def encryptSeq (providerName : String) (now ttl : Nat) (backend : KMSState)
    (freshDEK : List Nat) (loc : String) :
    TransformerState → List (List Nat) →
      Except TransformError (List (List Nat) × TransformerState)
  | st, [] => .ok ([], st)
  | st, p :: ps =>
    match transformToStorage providerName now ttl backend freshDEK st p loc with
    | .error e => .error e
    | .ok (b, st1) =>
      match encryptSeq providerName now ttl backend freshDEK loc st1 ps with
      | .error e => .error e
      | .ok (bs, st2) => .ok (b :: bs, st2)

/-- The expected wire outputs of a cached-epoch run whose counter stood at
`c` before the first draw. -/
def encOuts (providerName : String) (ep : KeyEpoch) (pfx : List Nat) (loc : String) :
    Nat → List (List Nat) → List (List Nat)
  | _, [] => []
  | c, p :: ps =>
    encOut providerName ep pfx (c + 1) p loc :: encOuts providerName ep pfx loc (c + 1) ps

theorem encryptSeq_cached (providerName loc : String) (now ttl : Nat)
    (backend : KMSState) (freshDEK : List Nat) (ep : KeyEpoch) (pfx : List Nat)
    (c : Nat) (ps : List (List Nat)) (hlive : now < ep.expiresAt)
    (hstable : ¬(backend.reachable = true ∧ backend.keyID ≠ ep.keyID))
    (hc : c + ps.length < 2 ^ 64) :
    encryptSeq providerName now ttl backend freshDEK loc ⟨some ep, ⟨pfx, c⟩⟩ ps =
      .ok (encOuts providerName ep pfx loc c ps, ⟨some ep, ⟨pfx, c + ps.length⟩⟩) := by
  induction ps generalizing c with
  | nil => simp [encryptSeq, encOuts]
  | cons p ps ih =>
    rw [encryptSeq,
      transformToStorage_cached providerName loc now ttl backend freshDEK ep pfx c p
        hlive hstable (by simp at hc; omega)]
    dsimp only
    rw [ih (c + 1) (by simp at hc ⊢; omega)]
    simp only [encOuts, List.length_cons]
    have h : c + 1 + ps.length = c + (ps.length + 1) := by omega
    rw [h]

/-- The wrapped DEK a stored record carries (test `envelopekmsv2.cipherTextDEK`
/ `assertPodDEKs` collecting `object.EncryptedDEK`). -/
def storedEDEK (providerName : String) (b : List Nat) : List Nat :=
  match decodeWire providerName b with
  | some o => o.encryptedDEK
  | none => []

/-- The 12-byte AEAD nonce of a stored record: the first 12 bytes of its
`encryptedData` (test `assertPodDEKs`, `nonce := out[i].EncryptedData[:12]`). -/
def storedNonce (providerName : String) (b : List Nat) : List Nat :=
  match decodeWire providerName b with
  | some o => o.encryptedData.take 12
  | none => []

/-- The little-endian counter in bytes 4..11 of a stored record's nonce
(test `assertPodDEKs`, `binary.LittleEndian.Uint64(count)`). -/
def storedCounter (providerName : String) (b : List Nat) : Nat :=
  decodeLE ((storedNonce providerName b).drop 4)

theorem storedEDEK_encOut (providerName loc : String) (ep : KeyEpoch) (pfx : List Nat)
    (c : Nat) (pt : List Nat) :
    storedEDEK providerName (encOut providerName ep pfx c pt loc) = ep.encryptedDEK := by
  simp [storedEDEK, encOut, decodeWire_encodeWire]

theorem storedNonce_encOut (providerName loc : String) (ep : KeyEpoch) (pfx : List Nat)
    (c : Nat) (pt : List Nat) (hp4 : pfx.length = 4) :
    storedNonce providerName (encOut providerName ep pfx c pt loc) =
      pfx ++ leBytes 8 c := by
  simp only [storedNonce, encOut, decodeWire_encodeWire, sealValue]
  have h : (pfx ++ leBytes 8 c).length = 12 := by simp [hp4, leBytes_length]
  rw [← h, List.take_left]

theorem storedCounter_encOut (providerName loc : String) (ep : KeyEpoch) (pfx : List Nat)
    (c : Nat) (pt : List Nat) (hp4 : pfx.length = 4) (hc : c < 2 ^ 64) :
    storedCounter providerName (encOut providerName ep pfx c pt loc) = c := by
  rw [storedCounter, storedNonce_encOut providerName loc ep pfx c pt hp4, ← hp4,
    List.drop_left, decodeLE_leBytes]
  have h : (256 : Nat) ^ 8 = 2 ^ 64 := by norm_num
  rw [h]
  exact Nat.mod_eq_of_lt hc

theorem encOuts_length (providerName loc : String) (ep : KeyEpoch) (pfx : List Nat)
    (c : Nat) (ps : List (List Nat)) :
    (encOuts providerName ep pfx loc c ps).length = ps.length := by
  induction ps generalizing c with
  | nil => rfl
  | cons p ps ih => simp [encOuts, ih]

theorem storedEDEK_mem_encOuts (providerName loc : String) (ep : KeyEpoch)
    (pfx : List Nat) (c : Nat) (ps : List (List Nat)) (b : List Nat)
    (hb : b ∈ encOuts providerName ep pfx loc c ps) :
    storedEDEK providerName b = ep.encryptedDEK := by
  induction ps generalizing c with
  | nil => simp [encOuts] at hb
  | cons p ps ih =>
    rw [encOuts] at hb
    rcases List.mem_cons.mp hb with h | h
    · rw [h, storedEDEK_encOut]
    · exact ih (c + 1) h

theorem dedup_eq_single {α : Type} [DecidableEq α] (l : List α) (x : α)
    (hne : l ≠ []) (hall : ∀ y ∈ l, y = x) : l.dedup = [x] := by
  induction l with
  | nil => exact absurd rfl hne
  | cons a l ih =>
    have ha : a = x := hall a (List.mem_cons_self a l)
    cases l with
    | nil => simp [List.dedup, ha]
    | cons b l =>
      have hb : b = x := hall b (by simp)
      have hmem : a ∈ b :: l := by rw [ha, ← hb]; exact List.mem_cons_self b l
      rw [List.dedup_cons_of_mem (by simpa using List.mem_dedup.mpr hmem)]
      exact ih (by simp) fun y hy => hall y (List.mem_cons_of_mem a hy)

/-- C2: a sequence of encryptions under one stable KMS key id reuses the
epoch's wrapped DEK: the stored records carry exactly one distinct
`encryptedDEK` value. -/
theorem c2_dek_reuse (providerName loc : String) (now ttl : Nat) (backend : KMSState)
    (freshDEK : List Nat) (ep : KeyEpoch) (pfx : List Nat) (c : Nat)
    (ps bs : List (List Nat)) (st' : TransformerState)
    (hlive : now < ep.expiresAt)
    (hkid : backend.keyID = ep.keyID)
    (hc : c + ps.length < 2 ^ 64)
    (hne : ps ≠ [])
    (henc : encryptSeq providerName now ttl backend freshDEK loc ⟨some ep, ⟨pfx, c⟩⟩ ps =
      .ok (bs, st')) :
    ((bs.map (storedEDEK providerName)).dedup.length = 1) := by
  rw [encryptSeq_cached providerName loc now ttl backend freshDEK ep pfx c ps hlive
    (by simp [hkid]) hc] at henc
  simp only [Except.ok.injEq, Prod.mk.injEq] at henc
  obtain ⟨hbs, _⟩ := henc
  subst hbs
  rw [dedup_eq_single _ ep.encryptedDEK]
  · rfl
  · have h := encOuts_length providerName loc ep pfx c ps
    intro hmap
    rw [List.map_eq_nil_iff] at hmap
    rw [hmap] at h
    exact hne (List.length_eq_zero.mp h.symm)
  · intro y hy
    obtain ⟨b, hb, hyb⟩ := List.mem_map.mp hy
    rw [← hyb]
    exact storedEDEK_mem_encOuts providerName loc ep pfx c ps b hb

/-- C2 witness: three encryptions under key id "1" yield one distinct
wrapped DEK. -/
theorem c2_dek_reuse_witness :
    (((encOuts "kms-provider" ⟨"1", [1, 2], wrapDEK [1, 2] "1", 60⟩ [9, 8, 7, 6]
        "loc" nonceSeed [[1], [2], [3]]).map (storedEDEK "kms-provider")).dedup.length
      = 1) :=
  c2_dek_reuse "kms-provider" "loc" 0 60 ⟨"1", true⟩ [3]
    ⟨"1", [1, 2], wrapDEK [1, 2] "1", 60⟩ [9, 8, 7, 6] nonceSeed [[1], [2], [3]] _ _
    (by decide) (by decide) (by decide) (by decide)
    (encryptSeq_cached "kms-provider" "loc" 0 60 ⟨"1", true⟩ [3]
      ⟨"1", [1, 2], wrapDEK [1, 2] "1", 60⟩ [9, 8, 7, 6] nonceSeed [[1], [2], [3]]
      (by decide) (by decide) (by decide))

/-- Any successful run of the transformer advances the counter by one per
encryption, keeps the random prefix, and embeds the counter value of each
draw in the stored nonce (whatever epochs were adopted along the way). -/
theorem encryptSeq_nonces (providerName loc : String) (now ttl : Nat)
    (backend : KMSState) (freshDEK : List Nat) (st : TransformerState)
    (ps bs : List (List Nat)) (st' : TransformerState)
    (hp4 : st.nonce.randomPrefix.length = 4)
    (henc : encryptSeq providerName now ttl backend freshDEK loc st ps =
      .ok (bs, st')) :
    bs.length = ps.length ∧
    st'.nonce.randomPrefix = st.nonce.randomPrefix ∧
    st'.nonce.counter = st.nonce.counter + ps.length ∧
    ∀ i (hi : i < bs.length),
      storedNonce providerName (bs.get ⟨i, hi⟩) =
        st.nonce.randomPrefix ++ leBytes 8 (st.nonce.counter + i + 1) := by
  induction ps generalizing st bs with
  | nil =>
    simp only [encryptSeq, Except.ok.injEq, Prod.mk.injEq] at henc
    obtain ⟨hbs, hst⟩ := henc
    subst hbs hst
    exact ⟨rfl, rfl, rfl, fun i hi => absurd hi (by simp)⟩
  | cons p ps ih =>
    unfold encryptSeq at henc
    split at henc
    · exact absurd henc (by simp)
    case _ b st1 hstep =>
      split at henc
      · exact absurd henc (by simp)
      case _ bs1 st2 hrest =>
        simp only [Except.ok.injEq, Prod.mk.injEq] at henc
        obtain ⟨hbs, hst⟩ := henc
        subst hbs hst
        obtain ⟨ep, flag, _, _, hb, hst1⟩ := transformToStorage_ok providerName loc
          now ttl backend freshDEK st p b st1 hstep
        subst hb hst1
        obtain ⟨hlen, hpfx, hcnt, hget⟩ := ih _ _ (by simpa using hp4) hrest
        refine ⟨by simp [hlen], by simpa using hpfx, ?_, ?_⟩
        · have h2 : st2.nonce.counter = st.nonce.counter + 1 + ps.length := by
            simpa using hcnt
          simp only [List.length_cons]
          omega
        intro i hi
        cases i with
        | zero =>
          exact storedNonce_encOut providerName loc ep st.nonce.randomPrefix
            (st.nonce.counter + 1) p hp4
        | succ i =>
          have hi' : i < bs1.length := by simpa using hi
          have h := hget i hi'
          simp only [List.get] at h ⊢
          rw [h]
          have hc : st.nonce.counter + 1 + i + 1 = st.nonce.counter + (i + 1) + 1 := by
            omega
          rw [hc]

/-- C3: from a fresh transformer (counter seeded at one billion with a 4-byte
random prefix), the `i`-th encryption's stored payload starts with the nonce
`randomPrefix ‖ littleEndian64(1_000_000_000 + i)` (1-based `i`, incremented
before use), so counters strictly increase and nonces are pairwise
distinct. -/
theorem c3_nonce_structure (providerName loc : String) (now ttl : Nat)
    (backend : KMSState) (freshDEK : List Nat) (st : TransformerState)
    (ps bs : List (List Nat)) (st' : TransformerState)
    (hp4 : st.nonce.randomPrefix.length = 4)
    (hseed : st.nonce.counter = nonceSeed)
    (hbound : nonceSeed + ps.length < 2 ^ 64)
    (henc : encryptSeq providerName now ttl backend freshDEK loc st ps =
      .ok (bs, st')) :
    (∀ i (hi : i < bs.length),
      storedNonce providerName (bs.get ⟨i, hi⟩) =
        st.nonce.randomPrefix ++ leBytes 8 (nonceSeed + (i + 1)) ∧
      storedCounter providerName (bs.get ⟨i, hi⟩) = nonceSeed + (i + 1)) ∧
    (∀ i j (hi : i < bs.length) (hj : j < bs.length), i ≠ j →
      storedNonce providerName (bs.get ⟨i, hi⟩) ≠
        storedNonce providerName (bs.get ⟨j, hj⟩)) := by
  obtain ⟨hlen, _, _, hget⟩ := encryptSeq_nonces providerName loc now ttl backend
    freshDEK st ps bs st' hp4 henc
  have hnonce : ∀ i (hi : i < bs.length),
      storedNonce providerName (bs.get ⟨i, hi⟩) =
        st.nonce.randomPrefix ++ leBytes 8 (nonceSeed + (i + 1)) := by
    intro i hi
    rw [hget i hi, hseed]
    have h : nonceSeed + i + 1 = nonceSeed + (i + 1) := by omega
    rw [h]
  have hcnt : ∀ i (hi : i < bs.length),
      storedCounter providerName (bs.get ⟨i, hi⟩) = nonceSeed + (i + 1) := by
    intro i hi
    rw [storedCounter, hnonce i hi, ← hp4, List.drop_left, decodeLE_leBytes]
    have h : (256 : Nat) ^ 8 = 2 ^ 64 := by norm_num
    rw [h]
    exact Nat.mod_eq_of_lt (by omega)
  refine ⟨fun i hi => ⟨hnonce i hi, hcnt i hi⟩, ?_⟩
  intro i j hi hj hij heq
  have h1 := hcnt i hi
  have h2 := hcnt j hj
  rw [storedCounter, heq, ← storedCounter] at h1
  rw [h1] at h2
  omega

/-- C3 witness: two encryptions from a fresh transformer carry counters
one billion plus one and one billion plus two, with distinct nonces. -/
theorem c3_nonce_structure_witness :
    (∀ i (hi : i < (encOuts "kms-provider" ⟨"1", [1, 2], wrapDEK [1, 2] "1", 60⟩
        [9, 8, 7, 6] "loc" nonceSeed [[1], [2]]).length),
      storedNonce "kms-provider"
          ((encOuts "kms-provider" ⟨"1", [1, 2], wrapDEK [1, 2] "1", 60⟩
            [9, 8, 7, 6] "loc" nonceSeed [[1], [2]]).get ⟨i, hi⟩) =
        [9, 8, 7, 6] ++ leBytes 8 (nonceSeed + (i + 1)) ∧
      storedCounter "kms-provider"
          ((encOuts "kms-provider" ⟨"1", [1, 2], wrapDEK [1, 2] "1", 60⟩
            [9, 8, 7, 6] "loc" nonceSeed [[1], [2]]).get ⟨i, hi⟩) =
        nonceSeed + (i + 1)) ∧
    (∀ i j (hi : i < (encOuts "kms-provider" ⟨"1", [1, 2], wrapDEK [1, 2] "1", 60⟩
        [9, 8, 7, 6] "loc" nonceSeed [[1], [2]]).length)
      (hj : j < (encOuts "kms-provider" ⟨"1", [1, 2], wrapDEK [1, 2] "1", 60⟩
        [9, 8, 7, 6] "loc" nonceSeed [[1], [2]]).length), i ≠ j →
      storedNonce "kms-provider"
          ((encOuts "kms-provider" ⟨"1", [1, 2], wrapDEK [1, 2] "1", 60⟩
            [9, 8, 7, 6] "loc" nonceSeed [[1], [2]]).get ⟨i, hi⟩) ≠
        storedNonce "kms-provider"
          ((encOuts "kms-provider" ⟨"1", [1, 2], wrapDEK [1, 2] "1", 60⟩
            [9, 8, 7, 6] "loc" nonceSeed [[1], [2]]).get ⟨j, hj⟩)) :=
  c3_nonce_structure "kms-provider" "loc" 0 60 ⟨"1", true⟩ [3]
    ⟨some ⟨"1", [1, 2], wrapDEK [1, 2] "1", 60⟩, ⟨[9, 8, 7, 6], nonceSeed⟩⟩
    [[1], [2]] _ _ (by decide) (by decide) (by decide)
    (encryptSeq_cached "kms-provider" "loc" 0 60 ⟨"1", true⟩ [3]
      ⟨"1", [1, 2], wrapDEK [1, 2] "1", 60⟩ [9, 8, 7, 6] nonceSeed [[1], [2]]
      (by decide) (by decide) (by decide))

/-! ## Key-id staleness and no-op updates (spec 4.5, test
`TestKMSv2ProviderKeyIDStaleness`) -/

/-- The key id a stored record carries. -/
def storedKeyID (providerName : String) (b : List Nat) : String :=
  match decodeWire providerName b with
  | some o => o.keyID
  | none => ""

theorem storedKeyID_encOut (providerName loc : String) (ep : KeyEpoch) (pfx : List Nat)
    (c : Nat) (pt : List Nat) :
    storedKeyID providerName (encOut providerName ep pfx c pt loc) = ep.keyID := by
  simp [storedKeyID, encOut, decodeWire_encodeWire]

/-- Modelled from the spec: a logically unchanged update of a stored value.
The stored record's key id is compared against the KMS-reported one (a
staleness signal only observable while the backend is reachable, spec 4.5);
only a stale record is re-encrypted — this is the only event that changes the
stored bytes of an otherwise unchanged object. -/
def noOpUpdate (providerName : String) (now ttl : Nat) (backend : KMSState)
    (freshDEK : List Nat) (st : TransformerState) (stored : List Nat)
    (pt : List Nat) (loc : String) :
    Except TransformError (List Nat × TransformerState) :=
  match decodeWire providerName stored with
  | none => .error .malformedEnvelope
  | some o =>
    if backend.reachable = true ∧ backend.keyID ≠ o.keyID then
      transformToStorage providerName now ttl backend freshDEK st pt loc
    else
      .ok (stored, st)

theorem noOpUpdate_fresh (providerName loc : String) (now ttl : Nat)
    (backend : KMSState) (freshDEK : List Nat) (st : TransformerState)
    (ep : KeyEpoch) (pfx0 : List Nat) (c0 : Nat) (pt0 pt : List Nat)
    (h : ¬(backend.reachable = true ∧ backend.keyID ≠ ep.keyID)) :
    noOpUpdate providerName now ttl backend freshDEK st
        (encOut providerName ep pfx0 c0 pt0 loc) pt loc =
      .ok (encOut providerName ep pfx0 c0 pt0 loc, st) := by
  unfold noOpUpdate
  simp only [encOut, decodeWire_encodeWire]
  rw [if_neg h]

theorem noOpUpdate_stale (providerName loc : String) (now ttl : Nat)
    (backend : KMSState) (freshDEK : List Nat) (st : TransformerState)
    (ep : KeyEpoch) (pfx0 : List Nat) (c0 : Nat) (pt0 pt : List Nat)
    (hr : backend.reachable = true) (hne : backend.keyID ≠ ep.keyID) :
    noOpUpdate providerName now ttl backend freshDEK st
        (encOut providerName ep pfx0 c0 pt0 loc) pt loc =
      transformToStorage providerName now ttl backend freshDEK st pt loc := by
  unfold noOpUpdate
  simp only [encOut, decodeWire_encodeWire]
  rw [if_pos ⟨hr, hne⟩]

theorem transformToStorage_stale (providerName loc : String) (now ttl : Nat)
    (backend : KMSState) (freshDEK : List Nat) (ep : KeyEpoch) (pfx : List Nat)
    (c : Nat) (pt : List Nat) (hlive : now < ep.expiresAt)
    (hr : backend.reachable = true) (hne : backend.keyID ≠ ep.keyID)
    (hc : c + 1 < 2 ^ 64) :
    transformToStorage providerName now ttl backend freshDEK ⟨some ep, ⟨pfx, c⟩⟩ pt loc =
      .ok (encOut providerName
          ⟨backend.keyID, freshDEK, wrapDEK freshDEK backend.keyID, now + ttl⟩
          pfx (c + 1) pt loc,
        ⟨some ⟨backend.keyID, freshDEK, wrapDEK freshDEK backend.keyID, now + ttl⟩,
          ⟨pfx, c + 1⟩⟩) := by
  unfold transformToStorage
  rw [show currentEpoch now ttl backend freshDEK (some ep) =
      .ok (⟨backend.keyID, freshDEK, wrapDEK freshDEK backend.keyID, now + ttl⟩, true)
    from ?_]
  · simp only [NonceState.next]
    rw [if_pos hc]
    rfl
  · rw [currentEpoch, if_neg (by omega), if_pos ⟨hr, hne⟩,
      mintEpoch_reachable now ttl backend freshDEK hr]

theorem wrapDEK_ne_two_one (a b : List Nat) : wrapDEK a "2" ≠ wrapDEK b "1" := by
  intro h
  have h2 := congrArg parseBytes h
  rw [parseBytes_wrapDEK, parseBytes_wrapDEK] at h2
  simp only [Option.some.injEq, Prod.mk.injEq] at h2
  exact absurd h2.2 (by decide)

/-- C4: after the KMS key id changes from "1" to "2", the transformer adopts
a new epoch exactly once: a no-op update before the change keeps the stored
bytes; the first no-op update after it re-encrypts under key id "2" with a
wrapped DEK different from the old epoch's, changing the stored bytes; and
every later no-op update leaves the new bytes and state untouched. -/
theorem c4_key_id_rotation (providerName loc : String) (now ttl c c0 : Nat)
    (pt pt0 pt1 d1 fd2 fd3 fd4 pfx pfx0 : List Nat)
    (httl : 0 < ttl) (hc : c + 1 < 2 ^ 64) :
    noOpUpdate providerName now ttl ⟨"1", true⟩ fd3
        ⟨some ⟨"1", d1, wrapDEK d1 "1", now + ttl⟩, ⟨pfx, c⟩⟩
        (encOut providerName ⟨"1", d1, wrapDEK d1 "1", now + ttl⟩ pfx0 c0 pt0 loc)
        pt loc =
      .ok (encOut providerName ⟨"1", d1, wrapDEK d1 "1", now + ttl⟩ pfx0 c0 pt0 loc,
        ⟨some ⟨"1", d1, wrapDEK d1 "1", now + ttl⟩, ⟨pfx, c⟩⟩) ∧
    noOpUpdate providerName now ttl ⟨"2", true⟩ fd2
        ⟨some ⟨"1", d1, wrapDEK d1 "1", now + ttl⟩, ⟨pfx, c⟩⟩
        (encOut providerName ⟨"1", d1, wrapDEK d1 "1", now + ttl⟩ pfx0 c0 pt0 loc)
        pt loc =
      .ok (encOut providerName ⟨"2", fd2, wrapDEK fd2 "2", now + ttl⟩ pfx (c + 1) pt loc,
        ⟨some ⟨"2", fd2, wrapDEK fd2 "2", now + ttl⟩, ⟨pfx, c + 1⟩⟩) ∧
    (storedKeyID providerName
        (encOut providerName ⟨"2", fd2, wrapDEK fd2 "2", now + ttl⟩ pfx (c + 1) pt loc)
        = "2" ∧
      storedEDEK providerName
          (encOut providerName ⟨"2", fd2, wrapDEK fd2 "2", now + ttl⟩ pfx (c + 1) pt loc)
        ≠ storedEDEK providerName
          (encOut providerName ⟨"1", d1, wrapDEK d1 "1", now + ttl⟩ pfx0 c0 pt0 loc) ∧
      encOut providerName ⟨"2", fd2, wrapDEK fd2 "2", now + ttl⟩ pfx (c + 1) pt loc
        ≠ encOut providerName ⟨"1", d1, wrapDEK d1 "1", now + ttl⟩ pfx0 c0 pt0 loc) ∧
    noOpUpdate providerName now ttl ⟨"2", true⟩ fd4
        ⟨some ⟨"2", fd2, wrapDEK fd2 "2", now + ttl⟩, ⟨pfx, c + 1⟩⟩
        (encOut providerName ⟨"2", fd2, wrapDEK fd2 "2", now + ttl⟩ pfx (c + 1) pt loc)
        pt1 loc =
      .ok (encOut providerName ⟨"2", fd2, wrapDEK fd2 "2", now + ttl⟩ pfx (c + 1) pt loc,
        ⟨some ⟨"2", fd2, wrapDEK fd2 "2", now + ttl⟩, ⟨pfx, c + 1⟩⟩) := by
  refine ⟨?_, ?_, ⟨?_, ?_, ?_⟩, ?_⟩
  · exact noOpUpdate_fresh providerName loc now ttl ⟨"1", true⟩ fd3
      ⟨some ⟨"1", d1, wrapDEK d1 "1", now + ttl⟩, ⟨pfx, c⟩⟩
      ⟨"1", d1, wrapDEK d1 "1", now + ttl⟩ pfx0 c0 pt0 pt (by simp)
  · rw [noOpUpdate_stale providerName loc now ttl ⟨"2", true⟩ fd2
      ⟨some ⟨"1", d1, wrapDEK d1 "1", now + ttl⟩, ⟨pfx, c⟩⟩
      ⟨"1", d1, wrapDEK d1 "1", now + ttl⟩ pfx0 c0 pt0 pt rfl (by simp)]
    exact (transformToStorage_stale providerName loc now ttl ⟨"2", true⟩ fd2
      ⟨"1", d1, wrapDEK d1 "1", now + ttl⟩ pfx c pt
      (show now < now + ttl by omega) rfl (by simp) hc).trans rfl
  · exact storedKeyID_encOut providerName loc _ pfx (c + 1) pt
  · rw [storedEDEK_encOut, storedEDEK_encOut]
    exact wrapDEK_ne_two_one fd2 d1
  · intro h
    have h2 := congrArg (storedKeyID providerName) h
    rw [storedKeyID_encOut, storedKeyID_encOut] at h2
    exact absurd (show ("2" : String) = "1" from h2) (by decide)
  · exact noOpUpdate_fresh providerName loc now ttl ⟨"2", true⟩ fd4
      ⟨some ⟨"2", fd2, wrapDEK fd2 "2", now + ttl⟩, ⟨pfx, c + 1⟩⟩
      ⟨"2", fd2, wrapDEK fd2 "2", now + ttl⟩ pfx (c + 1) pt pt1 (by simp)

/-- C4 witness: the rotation scenario evaluated at concrete inputs. -/
theorem c4_key_id_rotation_witness :
    noOpUpdate "kms-provider" 0 60 ⟨"1", true⟩ [9]
        ⟨some ⟨"1", [1, 2], wrapDEK [1, 2] "1", 0 + 60⟩, ⟨[9, 8, 7, 6], nonceSeed⟩⟩
        (encOut "kms-provider" ⟨"1", [1, 2], wrapDEK [1, 2] "1", 0 + 60⟩
          [4, 4, 4, 4] 5 [7] "loc") [5] "loc" =
      .ok (encOut "kms-provider" ⟨"1", [1, 2], wrapDEK [1, 2] "1", 0 + 60⟩
          [4, 4, 4, 4] 5 [7] "loc",
        ⟨some ⟨"1", [1, 2], wrapDEK [1, 2] "1", 0 + 60⟩, ⟨[9, 8, 7, 6], nonceSeed⟩⟩) ∧
    noOpUpdate "kms-provider" 0 60 ⟨"2", true⟩ [3, 4]
        ⟨some ⟨"1", [1, 2], wrapDEK [1, 2] "1", 0 + 60⟩, ⟨[9, 8, 7, 6], nonceSeed⟩⟩
        (encOut "kms-provider" ⟨"1", [1, 2], wrapDEK [1, 2] "1", 0 + 60⟩
          [4, 4, 4, 4] 5 [7] "loc") [5] "loc" =
      .ok (encOut "kms-provider" ⟨"2", [3, 4], wrapDEK [3, 4] "2", 0 + 60⟩
          [9, 8, 7, 6] (nonceSeed + 1) [5] "loc",
        ⟨some ⟨"2", [3, 4], wrapDEK [3, 4] "2", 0 + 60⟩,
          ⟨[9, 8, 7, 6], nonceSeed + 1⟩⟩) ∧
    (storedKeyID "kms-provider"
        (encOut "kms-provider" ⟨"2", [3, 4], wrapDEK [3, 4] "2", 0 + 60⟩
          [9, 8, 7, 6] (nonceSeed + 1) [5] "loc") = "2" ∧
      storedEDEK "kms-provider"
          (encOut "kms-provider" ⟨"2", [3, 4], wrapDEK [3, 4] "2", 0 + 60⟩
            [9, 8, 7, 6] (nonceSeed + 1) [5] "loc")
        ≠ storedEDEK "kms-provider"
          (encOut "kms-provider" ⟨"1", [1, 2], wrapDEK [1, 2] "1", 0 + 60⟩
            [4, 4, 4, 4] 5 [7] "loc") ∧
      encOut "kms-provider" ⟨"2", [3, 4], wrapDEK [3, 4] "2", 0 + 60⟩
          [9, 8, 7, 6] (nonceSeed + 1) [5] "loc"
        ≠ encOut "kms-provider" ⟨"1", [1, 2], wrapDEK [1, 2] "1", 0 + 60⟩
          [4, 4, 4, 4] 5 [7] "loc") ∧
    noOpUpdate "kms-provider" 0 60 ⟨"2", true⟩ [6]
        ⟨some ⟨"2", [3, 4], wrapDEK [3, 4] "2", 0 + 60⟩, ⟨[9, 8, 7, 6], nonceSeed + 1⟩⟩
        (encOut "kms-provider" ⟨"2", [3, 4], wrapDEK [3, 4] "2", 0 + 60⟩
          [9, 8, 7, 6] (nonceSeed + 1) [5] "loc") [8] "loc" =
      .ok (encOut "kms-provider" ⟨"2", [3, 4], wrapDEK [3, 4] "2", 0 + 60⟩
          [9, 8, 7, 6] (nonceSeed + 1) [5] "loc",
        ⟨some ⟨"2", [3, 4], wrapDEK [3, 4] "2", 0 + 60⟩,
          ⟨[9, 8, 7, 6], nonceSeed + 1⟩⟩) :=
  c4_key_id_rotation "kms-provider" "loc" 0 60 nonceSeed 5 [5] [7] [8] [1, 2] [3, 4]
    [9] [6] [9, 8, 7, 6] [4, 4, 4, 4] (by decide) (by decide)

/-! ## Expiry and availability (spec 4.5, test steps 4-7 of
`TestKMSv2ProviderKeyIDStaleness`) -/

/-- C5: once the cached epoch is past its expiry and the backend cannot serve
a refresh, every new encryption fails with `DekExpired` naming the expired
epoch's key id — no write succeeds under the expired epoch. -/
theorem c5_dek_expired (providerName loc : String) (now ttl : Nat)
    (backend : KMSState) (freshDEK : List Nat) (ep : KeyEpoch) (ns : NonceState)
    (pt : List Nat) (hr : backend.reachable = false) (hexp : ep.expiresAt ≤ now) :
    transformToStorage providerName now ttl backend freshDEK ⟨some ep, ns⟩ pt loc =
      .error (.dekExpired ep.keyID ep.expiresAt) := by
  unfold transformToStorage currentEpoch
  dsimp only
  rw [if_pos hexp, mintEpoch_unreachable now ttl backend freshDEK hr]

/-- C5 witness: an expired epoch with the backend down fails a concrete
encryption with `DekExpired` carrying key id "2". -/
theorem c5_dek_expired_witness :
    transformToStorage "kms-provider" 300 60 ⟨"2", false⟩ [3]
        ⟨some ⟨"2", [1, 2], wrapDEK [1, 2] "2", 60⟩, ⟨[9, 8, 7, 6], nonceSeed⟩⟩
        [5] "loc" =
      .error (.dekExpired "2" 60) :=
  c5_dek_expired "kms-provider" "loc" 300 60 ⟨"2", false⟩ [3]
    ⟨"2", [1, 2], wrapDEK [1, 2] "2", 60⟩ ⟨[9, 8, 7, 6], nonceSeed⟩ [5]
    rfl (by decide)

/-- C6: while the cached epoch is unexpired, an unreachable backend does not
block writes: `currentEpoch` serves the cached epoch without contacting the
backend (flag `false`) and `transformToStorage` succeeds with the
last-known-good DEK. -/
theorem c6_availability (providerName loc : String) (now ttl : Nat)
    (backend : KMSState) (freshDEK : List Nat) (ep : KeyEpoch) (pfx : List Nat)
    (c : Nat) (pt : List Nat) (hr : backend.reachable = false)
    (hlive : now < ep.expiresAt) (hc : c + 1 < 2 ^ 64) :
    currentEpoch now ttl backend freshDEK (some ep) = .ok (ep, false) ∧
    transformToStorage providerName now ttl backend freshDEK
        ⟨some ep, ⟨pfx, c⟩⟩ pt loc =
      .ok (encOut providerName ep pfx (c + 1) pt loc, ⟨some ep, ⟨pfx, c + 1⟩⟩) :=
  ⟨currentEpoch_cached now ttl backend freshDEK ep hlive (by simp [hr]),
    transformToStorage_cached providerName loc now ttl backend freshDEK ep pfx c pt
      hlive (by simp [hr]) hc⟩

/-- C6 witness: a concrete write succeeds from the cache while the backend
is down. -/
theorem c6_availability_witness :
    currentEpoch 0 60 ⟨"1", false⟩ [3] (some ⟨"1", [1, 2], wrapDEK [1, 2] "1", 60⟩) =
      .ok (⟨"1", [1, 2], wrapDEK [1, 2] "1", 60⟩, false) ∧
    transformToStorage "kms-provider" 0 60 ⟨"1", false⟩ [3]
        ⟨some ⟨"1", [1, 2], wrapDEK [1, 2] "1", 60⟩, ⟨[9, 8, 7, 6], nonceSeed⟩⟩
        [5] "loc" =
      .ok (encOut "kms-provider" ⟨"1", [1, 2], wrapDEK [1, 2] "1", 60⟩ [9, 8, 7, 6]
          (nonceSeed + 1) [5] "loc",
        ⟨some ⟨"1", [1, 2], wrapDEK [1, 2] "1", 60⟩, ⟨[9, 8, 7, 6], nonceSeed + 1⟩⟩) :=
  c6_availability "kms-provider" "loc" 0 60 ⟨"1", false⟩ [3]
    ⟨"1", [1, 2], wrapDEK [1, 2] "1", 60⟩ [9, 8, 7, 6] nonceSeed [5]
    rfl (by decide) (by decide)

/-- C7: reading a previously written value ignores epoch expiry: with the
wrapped DEK not in the local read cache, decryption succeeds whenever the
backend can unwrap it, and fails with `Unavailable` when the backend itself
is down. -/
theorem c7_decrypt_old_values (providerName loc : String) (backend : KMSState)
    (ep : KeyEpoch) (pfx : List Nat) (c : Nat) (pt : List Nat)
    (hp4 : pfx.length = 4) (hpt : ∀ x ∈ pt, x < 256)
    (hwf : ep.encryptedDEK = wrapDEK ep.plaintextDEK ep.keyID) :
    (backend.reachable = true →
      transformFromStorage providerName backend []
        (encOut providerName ep pfx c pt loc) loc = .ok pt) ∧
    (backend.reachable = false →
      transformFromStorage providerName backend []
        (encOut providerName ep pfx c pt loc) loc = .error .unavailable) := by
  constructor
  · intro hr
    simp only [transformFromStorage, encOut, decodeWire_encodeWire, lookupDEK,
      List.lookup_nil, decryptDEK, hr, if_true, hwf, parseBytes_wrapDEK]
    exact openValue_sealValue ep.plaintextDEK _ pt (strBytes loc)
      (by simp [hp4, leBytes_length]) hpt
  · intro hr
    simp only [transformFromStorage, encOut, decodeWire_encodeWire, lookupDEK,
      List.lookup_nil, decryptDEK, hr, if_false, Bool.false_eq_true]

/-- C7 witness: a concrete stored value decrypts through the backend, and
fails with `Unavailable` when the same backend is down. -/
theorem c7_decrypt_old_values_witness :
    ((⟨"1", false⟩ : KMSState).reachable = true →
      transformFromStorage "kms-provider" ⟨"1", false⟩ []
        (encOut "kms-provider" ⟨"1", [1, 2], wrapDEK [1, 2] "1", 60⟩ [9, 8, 7, 6]
          (nonceSeed + 1) [5] "loc") "loc" = .ok [5]) ∧
    ((⟨"1", false⟩ : KMSState).reachable = false →
      transformFromStorage "kms-provider" ⟨"1", false⟩ []
        (encOut "kms-provider" ⟨"1", [1, 2], wrapDEK [1, 2] "1", 60⟩ [9, 8, 7, 6]
          (nonceSeed + 1) [5] "loc") "loc" = .error .unavailable) :=
  c7_decrypt_old_values "kms-provider" "loc" ⟨"1", false⟩
    ⟨"1", [1, 2], wrapDEK [1, 2] "1", 60⟩ [9, 8, 7, 6] (nonceSeed + 1) [5]
    (by decide) (by decide) rfl

/-! ## Health aggregator (spec 4.8, test `TestKMSv2Healthz`) -/

/-- One provider's probe outcome (spec data model `ProviderHealth`). -/
structure ProviderHealth where
  name : String
  ok : Bool
  detail : String
  deriving DecidableEq

/-- The composite health report: plain-text "ok" or an error string. -/
structure HealthReport where
  healthy : Bool
  message : String
  deriving DecidableEq

/-- The error text for one failing provider slot, named by configuration
position and embedding the backend's raw failure detail verbatim
(spec section 6: `provider-0`, `provider-1`, ...). -/
def slotText (i : Nat) (p : ProviderHealth) : String :=
  "provider-" ++ toString i ++ ": " ++ p.detail

/-- The failing slots in stable configuration order. -/
def failingSlots (ps : List ProviderHealth) : List String :=
  (ps.enum.filter fun ip => !ip.2.ok).map fun ip => slotText ip.1 ip.2

/-- Join error texts of the failing slots. -/
def joinSlots : List String → String
  | [] => ""
  | s :: rest => if rest.isEmpty then s else s ++ ", " ++ joinSlots rest

/-- Modelled from the spec: `healthReport()` over the configured providers'
probe outcomes — healthy with message "ok" when all succeed, otherwise
unhealthy with the failing slots enumerated in configuration order. -/
def healthReport (ps : List ProviderHealth) : HealthReport :=
  if ps.all (fun p => p.ok) then ⟨true, "ok"⟩
  else ⟨false, joinSlots (failingSlots ps)⟩

/-- C8: when every provider probe succeeds the composite report is healthy
with message "ok"; with two configured providers, a single failure yields an
unhealthy report naming exactly that provider's slot by position with its
raw error detail, and two failures name both slots in configuration
order. -/
theorem c8_health_aggregation :
    (∀ ps : List ProviderHealth, (∀ p ∈ ps, p.ok = true) →
      healthReport ps = ⟨true, "ok"⟩) ∧
    (∀ n1 n2 e1 e2 : String,
      healthReport [⟨n1, false, e1⟩, ⟨n2, true, e2⟩] =
        ⟨false, "provider-0: " ++ e1⟩ ∧
      healthReport [⟨n1, true, e1⟩, ⟨n2, false, e2⟩] =
        ⟨false, "provider-1: " ++ e2⟩ ∧
      healthReport [⟨n1, false, e1⟩, ⟨n2, false, e2⟩] =
        ⟨false, "provider-0: " ++ e1 ++ ", " ++ ("provider-1: " ++ e2)⟩) := by
  constructor
  · intro ps h
    rw [healthReport, if_pos (List.all_eq_true.mpr h)]
  · intro n1 n2 e1 e2
    refine ⟨?_, ?_, ?_⟩
    · rw [healthReport, if_neg (by simp)]
      rw [show failingSlots [⟨n1, false, e1⟩, ⟨n2, true, e2⟩] =
        ["provider-" ++ toString 0 ++ ": " ++ e1] from rfl]
      rw [joinSlots, if_pos (by simp)]
      rw [show ("provider-" ++ toString 0 ++ ": " : String) = "provider-0: " from rfl]
    · rw [healthReport, if_neg (by simp)]
      rw [show failingSlots [⟨n1, true, e1⟩, ⟨n2, false, e2⟩] =
        ["provider-" ++ toString 1 ++ ": " ++ e2] from rfl]
      rw [joinSlots, if_pos (by simp)]
      rw [show ("provider-" ++ toString 1 ++ ": " : String) = "provider-1: " from rfl]
    · rw [healthReport, if_neg (by simp)]
      rw [show failingSlots [⟨n1, false, e1⟩, ⟨n2, false, e2⟩] =
        ["provider-" ++ toString 0 ++ ": " ++ e1,
          "provider-" ++ toString 1 ++ ": " ++ e2] from rfl]
      rw [joinSlots, if_neg (by simp), joinSlots, if_pos (by simp)]
      rw [show ("provider-" ++ toString 0 ++ ": " : String) = "provider-0: " from rfl,
        show ("provider-" ++ toString 1 ++ ": " : String) = "provider-1: " from rfl]

/-! ## Service factory / registry (spec 4.7, test `TestKMSv2SingleService`) -/

/-- The process-wide factory state: the endpoint-to-client map and the log of
construction events (the test's call counter on the construction path). -/
structure FactoryState where
  clients : List (String × Nat)
  constructions : List String
  deriving DecidableEq

/-- Modelled from the spec: `getOrCreate(endpoint) -> PluginClient`; a hit
returns the shared client unchanged, a miss constructs the client exactly
once (logging the event) and installs the binding. -/
def getOrCreate (s : FactoryState) (endpoint : String) : Nat × FactoryState :=
  match s.clients.lookup endpoint with
  | some c => (c, s)
  | none =>
    (s.constructions.length,
      ⟨(endpoint, s.constructions.length) :: s.clients,
        s.constructions ++ [endpoint]⟩)

/-- Serve a sequence of client requests (concurrent first-use from unrelated
consumers modelled as an arbitrary interleaving order), returning the final
state and each request's returned client. -/
def runFactory : FactoryState → List String → FactoryState × List (String × Nat)
  | s, [] => (s, [])
  | s, e :: es =>
    ((runFactory (getOrCreate s e).2 es).1,
      (e, (getOrCreate s e).1) :: (runFactory (getOrCreate s e).2 es).2)

/-- The factory before any consumer asked for a client. -/
def initialFactory : FactoryState := ⟨[], []⟩

/-- Construction events happened exactly once per mapped endpoint. -/
def goodCounts (s : FactoryState) : Prop :=
  ∀ x, s.constructions.count x = if (s.clients.lookup x).isSome then 1 else 0

theorem goodCounts_getOrCreate (s : FactoryState) (e : String) (h : goodCounts s) :
    goodCounts (getOrCreate s e).2 := by
  cases hl : s.clients.lookup e with
  | some c => simpa [getOrCreate, hl] using h
  | none =>
    intro x
    simp only [getOrCreate, hl]
    by_cases hx : x = e
    · subst hx
      have h0 := h x
      rw [hl] at h0
      simp only [Option.isSome_none, Bool.false_eq_true, if_false] at h0
      simp [List.count_append, h0, List.lookup]
    · have hex : ¬e = x := fun heq => hx heq.symm
      have hbeq : (x == e) = false := beq_eq_false_iff_ne.mpr hx
      have h2 : List.lookup x ((e, s.constructions.length) :: s.clients) =
          List.lookup x s.clients := by simp only [List.lookup, hbeq]
      have hce : List.count x [e] = 0 := by simp [List.count_cons, hex]
      rw [List.count_append, h2, hce, h x, Nat.add_zero]

theorem goodCounts_runFactory (es : List String) (s : FactoryState)
    (h : goodCounts s) : goodCounts (runFactory s es).1 := by
  induction es generalizing s with
  | nil => simpa [runFactory] using h
  | cons e es ih => exact ih _ (goodCounts_getOrCreate s e h)

theorem getOrCreate_lookup_self (s : FactoryState) (e : String) :
    (getOrCreate s e).2.clients.lookup e = some (getOrCreate s e).1 := by
  cases hl : s.clients.lookup e with
  | some c => simp [getOrCreate, hl]
  | none => simp [getOrCreate, hl, List.lookup]

theorem runFactory_lookup_mono (es : List String) (s : FactoryState) (x : String)
    (c : Nat) (h : s.clients.lookup x = some c) :
    (runFactory s es).1.clients.lookup x = some c := by
  induction es generalizing s with
  | nil => simpa [runFactory] using h
  | cons e es ih =>
    simp only [runFactory]
    apply ih
    cases hl : s.clients.lookup e with
    | some c2 => simpa [getOrCreate, hl] using h
    | none =>
      by_cases hx : x = e
      · rw [hx] at h
        rw [h] at hl
        exact absurd hl (by simp)
      · have hbeq : (x == e) = false := beq_eq_false_iff_ne.mpr hx
        simp [getOrCreate, hl, List.lookup, hbeq, h]

theorem runFactory_lookup_of_mem (es : List String) (s : FactoryState) (x : String)
    (hx : x ∈ es) : ((runFactory s es).1.clients.lookup x).isSome = true := by
  induction es generalizing s with
  | nil => simp at hx
  | cons e es ih =>
    simp only [runFactory]
    rcases List.mem_cons.mp hx with h | h
    · subst h
      rw [runFactory_lookup_mono es _ x _ (getOrCreate_lookup_self s x)]
      rfl
    · exact ih _ h

theorem runFactory_lookup_none (es : List String) (s : FactoryState) (x : String)
    (hx : x ∉ es) (h : s.clients.lookup x = none) :
    (runFactory s es).1.clients.lookup x = none := by
  induction es generalizing s with
  | nil => simpa [runFactory] using h
  | cons e es ih =>
    have hxe : x ≠ e := fun heq => hx (heq ▸ List.mem_cons_self e es)
    have hxs : x ∉ es := fun hm => hx (List.mem_cons_of_mem e hm)
    simp only [runFactory]
    apply ih _ hxs
    cases hl : s.clients.lookup e with
    | some c2 => simpa [getOrCreate, hl] using h
    | none =>
      have hbeq : (x == e) = false := beq_eq_false_iff_ne.mpr hxe
      simp [getOrCreate, hl, List.lookup, hbeq, h]

theorem runFactory_returns (es : List String) (s : FactoryState) :
    ∀ p ∈ (runFactory s es).2, (runFactory s es).1.clients.lookup p.1 = some p.2 := by
  induction es generalizing s with
  | nil => simp [runFactory]
  | cons e es ih =>
    intro p hp
    simp only [runFactory] at hp ⊢
    rcases List.mem_cons.mp hp with h | h
    · subst h
      exact runFactory_lookup_mono es _ e _ (getOrCreate_lookup_self s e)
    · exact ih _ p h

/-- C9: from a fresh factory, however many requests a sequence of consumers
makes, the construction path runs exactly once per requested endpoint (zero
times for one never requested), and every consumer of one endpoint receives
the same shared client. -/
theorem c9_single_service (es : List String) (e : String) :
    ((runFactory initialFactory es).1.constructions.count e =
      if e ∈ es then 1 else 0) ∧
    ∀ c1 c2, (e, c1) ∈ (runFactory initialFactory es).2 →
      (e, c2) ∈ (runFactory initialFactory es).2 → c1 = c2 := by
  have hg : goodCounts (runFactory initialFactory es).1 :=
    goodCounts_runFactory es initialFactory (by intro x; simp [initialFactory])
  constructor
  · rw [hg e]
    by_cases he : e ∈ es
    · rw [if_pos he, if_pos (runFactory_lookup_of_mem es initialFactory e he)]
    · rw [if_neg he,
        runFactory_lookup_none es initialFactory e he (by simp [initialFactory])]
      rfl
  · intro c1 c2 h1 h2
    have g1 := runFactory_returns es initialFactory (e, c1) h1
    have g2 := runFactory_returns es initialFactory (e, c2) h2
    rw [g1] at g2
    exact (Option.some.injEq _ _ ▸ g2)

/-! ## Generated deep copy of `KubeControllerManagerConfiguration`
(`pkg/controller/apis/config/zz_generated.deepcopy.go`)

The struct declarations behind the generated code live outside the staged
sources, so each controller sub-configuration is modelled minimally: plain
value-copied sub-configurations share one leaf shape, and the three
sub-configurations the generated code deep-copies (`Generic`,
`GarbageCollectorController`, `PersistentVolumeBinderController`) carry
reference-typed payloads with their own `deepCopyInto`.  A nil Go receiver is
an `Option.none`. -/

structure TypeMeta where
  kind : String
  apiVersion : String
  deriving DecidableEq

/-- A controller sub-configuration that the generated code copies by plain
assignment (`out.X = in.X`). -/
structure LeafControllerConfiguration where
  payload : String
  deriving DecidableEq

/-- `DeprecatedControllerConfiguration` (its `DeepCopyInto` is `*out = *in`). -/
structure DeprecatedControllerConfiguration where
  payload : String
  deriving DecidableEq

def DeprecatedControllerConfiguration.deepCopyInto
    (i : DeprecatedControllerConfiguration) : DeprecatedControllerConfiguration :=
  ⟨i.payload⟩

structure GenericControllerManagerConfiguration where
  controllers : List String
  deriving DecidableEq

def GenericControllerManagerConfiguration.deepCopyInto
    (i : GenericControllerManagerConfiguration) :
    GenericControllerManagerConfiguration :=
  ⟨i.controllers⟩

structure GarbageCollectorControllerConfiguration where
  gcIgnoredResources : List String
  deriving DecidableEq

def GarbageCollectorControllerConfiguration.deepCopyInto
    (i : GarbageCollectorControllerConfiguration) :
    GarbageCollectorControllerConfiguration :=
  ⟨i.gcIgnoredResources⟩

structure PersistentVolumeBinderControllerConfiguration where
  volumeConfiguration : List String
  deriving DecidableEq

def PersistentVolumeBinderControllerConfiguration.deepCopyInto
    (i : PersistentVolumeBinderControllerConfiguration) :
    PersistentVolumeBinderControllerConfiguration :=
  ⟨i.volumeConfiguration⟩

/-- `KubeControllerManagerConfiguration`, one field per field the generated
`DeepCopyInto` copies, in source order. -/
structure KubeControllerManagerConfiguration where
  TypeMeta : TypeMeta
  Generic : GenericControllerManagerConfiguration
  KubeCloudShared : LeafControllerConfiguration
  AttachDetachController : LeafControllerConfiguration
  CSRSigningController : LeafControllerConfiguration
  DaemonSetController : LeafControllerConfiguration
  DeploymentController : LeafControllerConfiguration
  StatefulSetController : LeafControllerConfiguration
  DeprecatedController : DeprecatedControllerConfiguration
  EndpointController : LeafControllerConfiguration
  EndpointSliceController : LeafControllerConfiguration
  EndpointSliceMirroringController : LeafControllerConfiguration
  EphemeralVolumeController : LeafControllerConfiguration
  GarbageCollectorController : GarbageCollectorControllerConfiguration
  HPAController : LeafControllerConfiguration
  JobController : LeafControllerConfiguration
  CronJobController : LeafControllerConfiguration
  NamespaceController : LeafControllerConfiguration
  NodeIPAMController : LeafControllerConfiguration
  NodeLifecycleController : LeafControllerConfiguration
  PersistentVolumeBinderController : PersistentVolumeBinderControllerConfiguration
  PodGCController : LeafControllerConfiguration
  ReplicaSetController : LeafControllerConfiguration
  ReplicationController : LeafControllerConfiguration
  ResourceQuotaController : LeafControllerConfiguration
  SAController : LeafControllerConfiguration
  ServiceController : LeafControllerConfiguration
  TTLAfterFinishedController : LeafControllerConfiguration
  deriving DecidableEq

/-- `KubeControllerManagerConfiguration.DeepCopyInto`: every field is copied
by assignment except `Generic`, `GarbageCollectorController` and
`PersistentVolumeBinderController`, which are deep-copied through their own
`DeepCopyInto`. -/
def KubeControllerManagerConfiguration.deepCopyInto
    (i : KubeControllerManagerConfiguration) : KubeControllerManagerConfiguration :=
  { TypeMeta := i.TypeMeta
    Generic := i.Generic.deepCopyInto
    KubeCloudShared := i.KubeCloudShared
    AttachDetachController := i.AttachDetachController
    CSRSigningController := i.CSRSigningController
    DaemonSetController := i.DaemonSetController
    DeploymentController := i.DeploymentController
    StatefulSetController := i.StatefulSetController
    DeprecatedController := i.DeprecatedController
    EndpointController := i.EndpointController
    EndpointSliceController := i.EndpointSliceController
    EndpointSliceMirroringController := i.EndpointSliceMirroringController
    EphemeralVolumeController := i.EphemeralVolumeController
    GarbageCollectorController := i.GarbageCollectorController.deepCopyInto
    HPAController := i.HPAController
    JobController := i.JobController
    CronJobController := i.CronJobController
    NamespaceController := i.NamespaceController
    NodeIPAMController := i.NodeIPAMController
    NodeLifecycleController := i.NodeLifecycleController
    PersistentVolumeBinderController := i.PersistentVolumeBinderController.deepCopyInto
    PodGCController := i.PodGCController
    ReplicaSetController := i.ReplicaSetController
    ReplicationController := i.ReplicationController
    ResourceQuotaController := i.ResourceQuotaController
    SAController := i.SAController
    ServiceController := i.ServiceController
    TTLAfterFinishedController := i.TTLAfterFinishedController }

/-- `KubeControllerManagerConfiguration.DeepCopy`: nil receiver yields nil,
otherwise a fresh object is filled in by `DeepCopyInto`. -/
def KubeControllerManagerConfiguration.deepCopy :
    Option KubeControllerManagerConfiguration →
      Option KubeControllerManagerConfiguration
  | none => none
  | some i => some i.deepCopyInto

/-- C10: `DeepCopy` of a nil `KubeControllerManagerConfiguration` is nil, and
for every non-nil configuration the copy is built by `DeepCopyInto` (with
`Generic`, `GarbageCollectorController` and `PersistentVolumeBinderController`
routed through their own deep copies) and is structurally equal to the
original, which is left unchanged. -/
theorem c10_deep_copy :
    KubeControllerManagerConfiguration.deepCopy none = none ∧
    ∀ c : KubeControllerManagerConfiguration,
      KubeControllerManagerConfiguration.deepCopy (some c) = some c.deepCopyInto ∧
      c.deepCopyInto.Generic = c.Generic.deepCopyInto ∧
      c.deepCopyInto.GarbageCollectorController =
        c.GarbageCollectorController.deepCopyInto ∧
      c.deepCopyInto.PersistentVolumeBinderController =
        c.PersistentVolumeBinderController.deepCopyInto ∧
      c.deepCopyInto = c := by
  refine ⟨rfl, fun c => ⟨rfl, rfl, rfl, rfl, ?_⟩⟩
  cases c with
  | mk tm g kcs adc csr dsc dc ssc depc ec esc esmc evc gcc hpa jc cjc nc nic nlc
      pvb pgc rsc rc rqc sac svc ttl =>
    cases g
    cases gcc
    cases pvb
    cases depc
    rfl



end EnvelopeKMS
